import Mathlib

/-!
Verification of the Ambilight PC application (`pc_app/ambilight.py` and
`pc_app/ambilight pro.py`) against its natural-language specification.

The Python source is shallowly embedded: numpy float arrays become lists of
rational triples, machine bytes become natural numbers, Python's `%` on
possibly-negative indices becomes `Int.emod`, and fallible operations
(serial writes, list indexing, `sys.exit`) become `Option`/`Except` values.
-/

namespace Ambilight

/-! ## Configuration constants (module-level constants of both source files) -/

def NUM_LEDS_LEFT : Nat := 19

def NUM_LEDS_TOP : Nat := 35

def NUM_LEDS_RIGHT : Nat := 19

def NUM_LEDS_TOTAL : Nat := NUM_LEDS_LEFT + NUM_LEDS_TOP + NUM_LEDS_RIGHT

def CAPTURE_DEPTH : Nat := 30

def DOWNSAMPLE : Nat := 2

def BUFFER_SIZE : Nat := 3

/-! ## Wire frame (`SerialSender.__init__` / `Ambilight.__init__` and `send`)

`count = NUM_LEDS_TOTAL - 1`, `hi, lo = (count >> 8) & 0xFF, count & 0xFF`,
`header = bytes([ord('A'), ord('d'), ord('a'), hi, lo, hi ^ lo ^ 0x55])`.
`ord('A') = 65`, `ord('d') = 100`, `ord('a') = 97`. -/

def headerCount : Nat := NUM_LEDS_TOTAL - 1

def headerHi : Nat := (headerCount >>> 8) &&& 0xFF

def headerLo : Nat := headerCount &&& 0xFF

def header : List Nat :=
  [65, 100, 97, headerHi, headerLo, headerHi ^^^ headerLo ^^^ 0x55]

/-- `colors.tobytes()` on a `(N, 3)` uint8 array: row-major flattening of the
per-LED R,G,B triples. -/
def payload : List (Nat × Nat × Nat) → List Nat
  | [] => []
  | c :: rest => c.1 :: c.2.1 :: c.2.2 :: payload rest

/-- The byte string passed to `self.serial.write` in `send`:
`self.header + colors.tobytes()`. -/
def frameBytes (colors : List (Nat × Nat × Nat)) : List Nat :=
  header ++ payload colors

/-! ## RingBuffer (`ambilight pro.py`, class `RingBuffer`)

The preallocated buffer list is embedded as a total function `Nat → α`
(Python indexes it only at `write_idx`-derived positions, which stay in
`[0, size)`).  Python's `%` on a possibly-negative int is `Int.emod`. -/

structure RingBuffer (α : Type) where
  size : Nat
  buffers : Nat → α
  write_idx : Int
  read_idx : Int
  count : Nat

/-- `RingBuffer.__init__`: all slots hold the zero sample, cursors at 0. -/
def RingBuffer.init (size : Nat) (zero : α) : RingBuffer α :=
  ⟨size, fun _ => zero, 0, 0, 0⟩

/-- `RingBuffer.put`: overwrite the slot at `write_idx`, advance `write_idx`;
if full, advance `read_idx` instead of growing `count`. -/
def RingBuffer.put (rb : RingBuffer α) (data : α) : RingBuffer α :=
  let buffers := fun i => if i = rb.write_idx.toNat then data else rb.buffers i
  let write_idx := (rb.write_idx + 1) % (rb.size : Int)
  if rb.count < rb.size then
    { rb with buffers := buffers, write_idx := write_idx, count := rb.count + 1 }
  else
    { rb with buffers := buffers, write_idx := write_idx,
              read_idx := (rb.read_idx + 1) % (rb.size : Int) }

/-- `RingBuffer.get`: `None` when empty, else a copy of the most recently
written slot `(write_idx - 1) % size`; marks the buffer consumed. -/
def RingBuffer.get (rb : RingBuffer α) : Option α × RingBuffer α :=
  if rb.count = 0 then (none, rb)
  else
    (some (rb.buffers ((rb.write_idx - 1) % (rb.size : Int)).toNat),
     { rb with count := 0, read_idx := rb.write_idx })

/-! ## Color processing (`ColorProcessor.process` in `ambilight pro.py`,
`Ambilight.process_colors` in `ambilight.py`)

Numpy float arrays become lists of rational triples (R, G, B). -/

abbrev Color := ℚ × ℚ × ℚ

/-- One pixel of the saturation step:
`gray = colors.mean(axis=1)`, `colors = gray + (colors - gray) * saturation`. -/
def satOne (S : ℚ) (c : Color) : Color :=
  let gray := (c.1 + c.2.1 + c.2.2) / 3
  (gray + (c.1 - gray) * S, gray + (c.2.1 - gray) * S, gray + (c.2.2 - gray) * S)

/-- `if self.saturation != 1.0:` guard around the saturation step. -/
def applySaturation (S : ℚ) (colors : List Color) : List Color :=
  if S = 1 then colors else colors.map (satOne S)

/-- One pixel of the brightness step: `colors *= self.brightness`. -/
def briOne (B : ℚ) (c : Color) : Color :=
  (c.1 * B, c.2.1 * B, c.2.2 * B)

/-- `if self.brightness != 1.0:` guard around the brightness step. -/
def applyBrightness (B : ℚ) (colors : List Color) : List Color :=
  if B = 1 then colors else colors.map (briOne B)

/-- One pixel of the EMA smoothing step in `ambilight pro.py`:
`colors = self.prev_colors + alpha * (colors - self.prev_colors)`. -/
def emaOne (a : ℚ) (p c : Color) : Color :=
  (p.1 + a * (c.1 - p.1), p.2.1 + a * (c.2.1 - p.2.1), p.2.2 + a * (c.2.2 - p.2.2))

/-- `np.clip(colors, 0, 255)` followed by `astype(np.uint8)` on one channel:
clamp to [0, 255], then truncate to an integer (floor, as the value is
nonnegative after the clamp). -/
def clampTrunc (q : ℚ) : Nat :=
  (⌊min (max q 0) 255⌋).toNat

/-- Clamp-and-truncate one RGB triple. -/
def clampOut (c : Color) : Nat × Nat × Nat :=
  (clampTrunc c.1, clampTrunc c.2.1, clampTrunc c.2.2)

/-- The `ColorProcessor` of `ambilight pro.py`: configuration plus the
smoothing state, which is `None` until the first sample is processed. -/
structure ColorProcessor where
  brightness : ℚ
  saturation : ℚ
  smoothing : ℚ
  prev_colors : Option (List Color)

/-- `ColorProcessor.process`: saturation, brightness, EMA smoothing
(skipped on the first sample, which instead initializes `prev_colors`),
then clip and uint8 conversion.  `prev_colors` stores the pre-clip values
(the copy in the source is taken before `np.clip`). -/
def ColorProcessor.process (cp : ColorProcessor) (colors0 : List Color) :
    List (Nat × Nat × Nat) × ColorProcessor :=
  let colors1 := applySaturation cp.saturation colors0
  let colors2 := applyBrightness cp.brightness colors1
  match cp.prev_colors with
  | none => (colors2.map clampOut, { cp with prev_colors := some colors2 })
  | some prev =>
      let blended := List.zipWith (emaOne cp.smoothing) prev colors2
      (blended.map clampOut, { cp with prev_colors := some blended })

/-- Smoothing state of the baseline `ambilight.py` variant: a preallocated
`prev_colors` buffer plus the `first_frame` flag. -/
structure AmbiSmoothState where
  prev_colors : List Color
  first_frame : Bool

/-- `Ambilight.process_colors` of `ambilight.py`: same pipeline, with the
blend written as `prev * (1 - alpha) + colors * alpha` and the first frame
detected by the `first_frame` flag. -/
def process_colors (saturation brightness smoothing : ℚ)
    (st : AmbiSmoothState) (colors0 : List Color) :
    List (Nat × Nat × Nat) × AmbiSmoothState :=
  let colors1 := applySaturation saturation colors0
  let colors2 := applyBrightness brightness colors1
  if st.first_frame then
    (colors2.map clampOut, ⟨colors2, false⟩)
  else
    let blended := List.zipWith
      (fun p c => (p.1 * (1 - smoothing) + c.1 * smoothing,
                   p.2.1 * (1 - smoothing) + c.2.1 * smoothing,
                   p.2.2 * (1 - smoothing) + c.2.2 * smoothing))
      st.prev_colors colors2
    (blended.map clampOut, ⟨blended, false⟩)

/-! ## Sampler geometry (`ScreenCapture._precompute_indices` in
`ambilight pro.py`, `Ambilight.capture_and_sample` in `ambilight.py`)

`v_seg = height // NUM_LEDS_LEFT`, `h_seg = width // NUM_LEDS_TOP`.
Left edge (bottom to top): `y = height - (i+1)*v_seg`, range `[y, y+v_seg)`.
Top edge (left to right): `x = i*h_seg`, range `[x, x+h_seg)`.
Right edge (top to bottom): `y = i*v_seg`, range `[y, y+v_seg)`.
The `DOWNSAMPLE` stride only thins the pixels read inside a range; the
per-LED range along the edge's long axis is as recorded here. -/

inductive Edge
  | left
  | top
  | right
deriving DecidableEq

/-- One per-LED slice: the edge it belongs to and the pixel range
`[start, start + len)` along that edge's long axis. -/
structure SliceSpec where
  edge : Edge
  start : Nat
  len : Nat
deriving DecidableEq

def leftSlices (H : Nat) : List SliceSpec :=
  (List.range NUM_LEDS_LEFT).map fun i =>
    ⟨Edge.left, H - (i + 1) * (H / NUM_LEDS_LEFT), H / NUM_LEDS_LEFT⟩

def topSlices (W : Nat) : List SliceSpec :=
  (List.range NUM_LEDS_TOP).map fun i =>
    ⟨Edge.top, i * (W / NUM_LEDS_TOP), W / NUM_LEDS_TOP⟩

def rightSlices (H : Nat) : List SliceSpec :=
  (List.range NUM_LEDS_RIGHT).map fun i =>
    ⟨Edge.right, i * (H / NUM_LEDS_LEFT), H / NUM_LEDS_LEFT⟩

/-- All 73 per-LED slices, in the order the sampler writes the output
array: `colors[i]` (left), `colors[NUM_LEDS_LEFT + i]` (top),
`colors[NUM_LEDS_LEFT + NUM_LEDS_TOP + i]` (right). -/
def allSlices (H W : Nat) : List SliceSpec :=
  leftSlices H ++ topSlices W ++ rightSlices H

/-- `sample_colors_vectorized`, abstracted over the per-slice pixel
averaging `f` (the mean over the sampled pixel subset). -/
def sample_colors (f : SliceSpec → Color) (H W : Nat) : List Color :=
  (allSlices H W).map f

/-- Pixel `p` lies in the range of slice `s`. -/
def inSlice (s : SliceSpec) (p : Nat) : Prop :=
  s.start ≤ p ∧ p < s.start + s.len

instance (s : SliceSpec) (p : Nat) : Decidable (inSlice s p) := by
  unfold inSlice
  infer_instance


/-! ## Serial port selection (`SerialSender._connect` / `_auto_detect` in
`ambilight pro.py`, `Ambilight.connect_serial` in `ambilight.py`) -/

/-- One entry of `serial.tools.list_ports.comports()`. -/
structure PortInfo where
  device : String
  description : String
deriving DecidableEq

/-- Python's substring test `needle in hay`, on character lists. -/
def charsContain (needle : List Char) : List Char → Bool
  | [] => needle.isEmpty
  | c :: rest => needle.isPrefixOf (c :: rest) || charsContain needle rest

/-- Python's `k in s` on strings. -/
def strContains (k s : String) : Bool :=
  charsContain k.data s.data

/-- Keyword list of `SerialSender._auto_detect` in `ambilight pro.py`. -/
def proKeywords : List String :=
  ["Arduino", "CH340", "USB-SERIAL", "ttyUSB", "ttyACM"]

/-- Keyword list of `Ambilight.connect_serial` in `ambilight.py`. -/
def basicKeywords : List String :=
  ["Arduino", "CH340", "USB-SERIAL", "USB Serial"]

/-- The per-port match test of `_auto_detect`:
`any(k in p.description or k in p.device for k in keywords)`. -/
def proMatches (p : PortInfo) : Bool :=
  proKeywords.any fun k => strContains k p.description || strContains k p.device

/-- The per-port match test of `connect_serial`:
`any(x in p.description for x in [...])` — descriptions only. -/
def basicMatches (p : PortInfo) : Bool :=
  basicKeywords.any fun k => strContains k p.description

/-- `SerialSender._auto_detect`: the first keyword-matching port, else the
first enumerated port, else fatal (`sys.exit(1)`, embedded as `none`). -/
def auto_detect (ports : List PortInfo) : Option String :=
  match ports.find? proMatches with
  | some p => some p.device
  | none =>
      match ports with
      | [] => none
      | p :: _ => some p.device

/-- The port-selection logic of `Ambilight.connect_serial` in
`ambilight.py` when called with `port=None` (fatal exit as `none`). -/
def connect_serial_choice (ports : List PortInfo) : Option String :=
  match ports.find? basicMatches with
  | some p => some p.device
  | none =>
      match ports with
      | [] => none
      | p :: _ => some p.device

/-- `SerialSender._connect`: auto-detect runs only when `port is None`. -/
def connect_port (port : Option String) (ports : List PortInfo) :
    Option String :=
  match port with
  | none => auto_detect ports
  | some p => some p

/-- The `argparse` default of `--port` in both variants' `main`. -/
def PORT_DEFAULT : String := "COM3"

/-- The port string `main` hands to the controller: the CLI value, or the
argparse default when `--port` is omitted (a CLI run never passes `None`). -/
def cli_port (cli : Option String) : String :=
  match cli with
  | some s => s
  | none => PORT_DEFAULT

/-! ## Monitor selection (`_setup_monitor` in both variants) -/

/-- Python list indexing `l[i]`: negative indices count from the end;
an out-of-range index raises IndexError, embedded as `none`. -/
def pyIndex {α : Type} (l : List α) (i : Int) : Option α :=
  if 0 ≤ i then l.get? i.toNat
  else if 0 ≤ i + l.length then l.get? (i + l.length).toNat
  else none

/-- `idx = min(monitor_num + 1, len(monitors) - 1); mon = monitors[idx]`. -/
def setup_monitor {α : Type} (monitors : List α) (monitor_num : Int) :
    Option α :=
  pyIndex monitors (min (monitor_num + 1) ((monitors.length : Int) - 1))

/-! ## Transmitter send and the consumer loop (`SerialSender.send`,
`AmbilightPro.run` in `ambilight pro.py`) -/

/-- `SerialSender.send`: `try: self.serial.write(self.header +
colors.tobytes()); return True / except: return False`.  The serial write
is the external effect, passed in as a function returning `Except`; the
`try/except` turns any raised error into a plain `False` return, so `send`
itself always returns `ok` (it never re-raises). -/
def SerialSender.send {ε : Type} (write : List Nat → Except ε Unit)
    (colors : List (Nat × Nat × Nat)) : Except ε Bool :=
  match write (frameBytes colors) with
  | Except.ok _ => Except.ok true
  | Except.error _ => Except.ok false

/-- `Ambilight.send` in `ambilight.py`: `try: self.serial.write(self.header
+ colors.tobytes()) / except: self.running = False`.  It has no `return`
statement, so Python returns `None` on every path (embedded as the
`Option Bool` value `none`: never a boolean); a write failure is signaled
only by setting `self.running = False`, which ends the baseline
`while self.running:` loop at its next iteration check.  The `try/except`
makes it total (`ok` on every path). -/
def baseline_send {ε : Type} (write : List Nat → Except ε Unit)
    (running : Bool) (colors : List (Nat × Nat × Nat)) :
    Except ε (Option Bool × Bool) :=
  match write (frameBytes colors) with
  | Except.ok _ => Except.ok (none, running)
  | Except.error _ => Except.ok (none, false)

/-- Outcome of one iteration of the consumer loop in `AmbilightPro.run`. -/
inductive IterOutcome
  | emptyRetry
  | sent
  | fatalShutdown
deriving DecidableEq

/-- One iteration of the consumer-loop body: `colors = buffer.get()`;
`None` → sleep 1 ms and retry; otherwise process and send; a `False` from
send breaks the loop and the `finally:` block runs `cleanup()`. -/
def consumer_step (latest : Option (List Color)) (cp : ColorProcessor)
    (sendResult : List (Nat × Nat × Nat) → Bool) : IterOutcome :=
  match latest with
  | none => IterOutcome.emptyRetry
  | some colors =>
      if sendResult (cp.process colors).1 then IterOutcome.sent
      else IterOutcome.fatalShutdown

/-! ## RingBuffer operation sequences (for the state invariant) -/

/-- An externally visible RingBuffer operation: `put(data)` or `get()`. -/
inductive RBOp (α : Type)
  | put (a : α)
  | take

/-- Apply one operation to the buffer state (the value a `get` returns is
dropped; only the state evolution matters here). -/
def RingBuffer.step (rb : RingBuffer α) : RBOp α → RingBuffer α
  | RBOp.put a => rb.put a
  | RBOp.take => rb.get.2

/-- Run a sequence of operations from a starting state. -/
def RingBuffer.runOps (rb : RingBuffer α) (ops : List (RBOp α)) :
    RingBuffer α :=
  ops.foldl RingBuffer.step rb

/-- The RingBuffer state invariant: `0 ≤ count ≤ size` and both cursors in
`[0, size)`. -/
def RBinv (rb : RingBuffer α) : Prop :=
  rb.count ≤ rb.size ∧ 0 ≤ rb.write_idx ∧ rb.write_idx < (rb.size : Int) ∧
    0 ≤ rb.read_idx ∧ rb.read_idx < (rb.size : Int)

theorem payload_length (colors : List (Nat × Nat × Nat)) :
    (payload colors).length = 3 * colors.length := by
  induction colors with
  | nil => rfl
  | cons c rest ih => simp [payload, ih]; ring

theorem left_covered (H p : Nat) :
    (∃ s ∈ leftSlices H, inSlice s p) ↔ H % 19 ≤ p ∧ p < H := by
  simp only [leftSlices, NUM_LEDS_LEFT, inSlice, List.mem_map, List.mem_range]
  constructor
  · rintro ⟨s, ⟨i, hi, rfl⟩, h1, h2⟩
    simp only at h1 h2
    have hmul : (i + 1) * (H / 19) ≤ 19 * (H / 19) :=
      mul_le_mul_right' (by omega) _
    have hge : 1 * (H / 19) ≤ (i + 1) * (H / 19) :=
      mul_le_mul_right' (by omega) _
    rw [one_mul] at hge
    have hdm : 19 * (H / 19) + H % 19 = H := Nat.div_add_mod H 19
    generalize (i + 1) * (H / 19) = A at h1 h2 hmul hge
    omega
  · rintro ⟨h1, h2⟩
    have hdm19 : 19 * (H / 19) + H % 19 = H := Nat.div_add_mod H 19
    have hv : 1 ≤ H / 19 := by omega
    have hklt : H - 1 - p < 19 * (H / 19) := by omega
    have hi : (H - 1 - p) / (H / 19) < 19 :=
      (Nat.div_lt_iff_lt_mul hv).mpr hklt
    refine ⟨_, ⟨(H - 1 - p) / (H / 19), hi, rfl⟩, ?_, ?_⟩ <;>
    · dsimp only
      have hdm : (H / 19) * ((H - 1 - p) / (H / 19)) + (H - 1 - p) % (H / 19)
          = H - 1 - p := Nat.div_add_mod _ _
      have hmod : (H - 1 - p) % (H / 19) < H / 19 := Nat.mod_lt _ (by omega)
      have hexp : ((H - 1 - p) / (H / 19) + 1) * (H / 19)
          = (H / 19) * ((H - 1 - p) / (H / 19)) + H / 19 := by ring
      rw [hexp]
      generalize (H / 19) * ((H - 1 - p) / (H / 19)) = B at hdm
      generalize (H - 1 - p) % (H / 19) = r at hdm hmod
      omega

theorem top_covered (W p : Nat) :
    (∃ s ∈ topSlices W, inSlice s p) ↔ p < W - W % 35 := by
  simp only [topSlices, NUM_LEDS_TOP, inSlice, List.mem_map, List.mem_range]
  constructor
  · rintro ⟨s, ⟨i, hi, rfl⟩, h1, h2⟩
    simp only at h1 h2
    have hmul : (i + 1) * (W / 35) ≤ 35 * (W / 35) :=
      mul_le_mul_right' (by omega) _
    have hexp : (i + 1) * (W / 35) = i * (W / 35) + W / 35 := by ring
    have hdm : 35 * (W / 35) + W % 35 = W := Nat.div_add_mod W 35
    generalize i * (W / 35) = A at h1 h2 hexp
    generalize (i + 1) * (W / 35) = B at hmul hexp
    omega
  · intro h1
    have hdm35 : 35 * (W / 35) + W % 35 = W := Nat.div_add_mod W 35
    have hv : 1 ≤ W / 35 := by omega
    have hi : p / (W / 35) < 35 := (Nat.div_lt_iff_lt_mul hv).mpr (by omega)
    refine ⟨_, ⟨p / (W / 35), hi, rfl⟩, ?_, ?_⟩ <;>
    · dsimp only
      have hdm : (W / 35) * (p / (W / 35)) + p % (W / 35) = p :=
        Nat.div_add_mod _ _
      have hmod : p % (W / 35) < W / 35 := Nat.mod_lt _ (by omega)
      have hcomm : (p / (W / 35)) * (W / 35) = (W / 35) * (p / (W / 35)) :=
        Nat.mul_comm _ _
      rw [hcomm]
      generalize (W / 35) * (p / (W / 35)) = B at hdm
      generalize p % (W / 35) = r at hdm hmod
      omega

theorem right_covered (H p : Nat) :
    (∃ s ∈ rightSlices H, inSlice s p) ↔ p < H - H % 19 := by
  simp only [rightSlices, NUM_LEDS_RIGHT, NUM_LEDS_LEFT, inSlice,
    List.mem_map, List.mem_range]
  constructor
  · rintro ⟨s, ⟨i, hi, rfl⟩, h1, h2⟩
    simp only at h1 h2
    have hmul : (i + 1) * (H / 19) ≤ 19 * (H / 19) :=
      mul_le_mul_right' (by omega) _
    have hexp : (i + 1) * (H / 19) = i * (H / 19) + H / 19 := by ring
    have hdm : 19 * (H / 19) + H % 19 = H := Nat.div_add_mod H 19
    generalize i * (H / 19) = A at h1 h2 hexp
    generalize (i + 1) * (H / 19) = B at hmul hexp
    omega
  · intro h1
    have hdm19 : 19 * (H / 19) + H % 19 = H := Nat.div_add_mod H 19
    have hv : 1 ≤ H / 19 := by omega
    have hi : p / (H / 19) < 19 := (Nat.div_lt_iff_lt_mul hv).mpr (by omega)
    refine ⟨_, ⟨p / (H / 19), hi, rfl⟩, ?_, ?_⟩ <;>
    · dsimp only
      have hdm : (H / 19) * (p / (H / 19)) + p % (H / 19) = p :=
        Nat.div_add_mod _ _
      have hmod : p % (H / 19) < H / 19 := Nat.mod_lt _ (by omega)
      have hcomm : (p / (H / 19)) * (H / 19) = (H / 19) * (p / (H / 19)) :=
        Nat.mul_comm _ _
      rw [hcomm]
      generalize (H / 19) * (p / (H / 19)) = B at hdm
      generalize p % (H / 19) = r at hdm hmod
      omega

theorem left_slices_disjoint (H : Nat) :
    (leftSlices H).Pairwise
      (fun s t => ∀ p : Nat, ¬ (inSlice s p ∧ inSlice t p)) := by
  rw [leftSlices, List.pairwise_map]
  refine (List.pairwise_lt_range _).imp_of_mem ?_
  intro i j _ hb hij p hc
  rw [List.mem_range] at hb
  simp only [inSlice, NUM_LEDS_LEFT] at hb hc ⊢
  obtain ⟨⟨h1, h2⟩, h3, h4⟩ := hc
  have hH : 19 * (H / 19) ≤ H := Nat.mul_div_le H 19
  have e1 : (i + 2) * (H / 19) ≤ (j + 1) * (H / 19) :=
    mul_le_mul_right' (by omega) _
  have e2 : (j + 1) * (H / 19) ≤ 19 * (H / 19) :=
    mul_le_mul_right' (by omega) _
  have e3 : (i + 2) * (H / 19) = (i + 1) * (H / 19) + H / 19 := by ring
  generalize (i + 1) * (H / 19) = A at h1 h2 e3
  generalize (j + 1) * (H / 19) = B at h3 h4 e1 e2
  generalize (i + 2) * (H / 19) = C at e1 e3
  omega

theorem top_slices_disjoint (W : Nat) :
    (topSlices W).Pairwise
      (fun s t => ∀ p : Nat, ¬ (inSlice s p ∧ inSlice t p)) := by
  rw [topSlices, List.pairwise_map]
  refine (List.pairwise_lt_range _).imp_of_mem ?_
  intro i j _ _ hij p hc
  simp only [inSlice, NUM_LEDS_TOP] at hc
  obtain ⟨⟨h1, h2⟩, h3, h4⟩ := hc
  have e1 : (i + 1) * (W / 35) ≤ j * (W / 35) :=
    mul_le_mul_right' (by omega) _
  have e3 : (i + 1) * (W / 35) = i * (W / 35) + W / 35 := by ring
  generalize i * (W / 35) = A at h1 h2 e3
  generalize j * (W / 35) = B at h3 h4 e1
  generalize (i + 1) * (W / 35) = C at e1 e3
  omega

theorem right_slices_disjoint (H : Nat) :
    (rightSlices H).Pairwise
      (fun s t => ∀ p : Nat, ¬ (inSlice s p ∧ inSlice t p)) := by
  rw [rightSlices, List.pairwise_map]
  refine (List.pairwise_lt_range _).imp_of_mem ?_
  intro i j _ _ hij p hc
  simp only [inSlice, NUM_LEDS_LEFT] at hc
  obtain ⟨⟨h1, h2⟩, h3, h4⟩ := hc
  have e1 : (i + 1) * (H / 19) ≤ j * (H / 19) :=
    mul_le_mul_right' (by omega) _
  have e3 : (i + 1) * (H / 19) = i * (H / 19) + H / 19 := by ring
  generalize i * (H / 19) = A at h1 h2 e3
  generalize j * (H / 19) = B at h3 h4 e1
  generalize (i + 1) * (H / 19) = C at e1 e3
  omega

theorem allSlices_length (H W : Nat) : (allSlices H W).length = 73 := by
  simp [allSlices, leftSlices, topSlices, rightSlices,
    NUM_LEDS_LEFT, NUM_LEDS_TOP, NUM_LEDS_RIGHT]

theorem allSlices_edges (H W : Nat) :
    (allSlices H W).map SliceSpec.edge
      = List.replicate 19 Edge.left ++ List.replicate 35 Edge.top
          ++ List.replicate 19 Edge.right := by
  rw [allSlices, leftSlices, topSlices, rightSlices, List.map_append,
    List.map_append, List.map_map, List.map_map, List.map_map]
  dsimp only [Function.comp_def]
  rw [List.map_const', List.map_const', List.map_const',
    List.length_range, List.length_range, List.length_range]
  rfl

end Ambilight

namespace Ambilight

/-- C1: For the fixed total LED count 73, the precomputed wire-frame header is
exactly the six bytes [0x41,0x64,0x61,0x00,0x48,0x1D], and every frame's
payload produced by send has length 3 × 73 = 219 bytes. -/
theorem wire_framing_73 :
    header = [0x41, 0x64, 0x61, 0x00, 0x48, 0x1D] ∧
    ∀ colors : List (Nat × Nat × Nat), colors.length = NUM_LEDS_TOTAL →
      (payload colors).length = 219 := by
  constructor
  · rfl
  · intro colors h
    rw [payload_length, h]
    rfl

/-- Witness for C1: a concrete all-black frame of 73 LEDs has a 219-byte
payload. -/
theorem wire_framing_73_witness :
    (payload (List.replicate 73 (0, 0, 0))).length = 219 :=
  wire_framing_73.2 (List.replicate 73 (0, 0, 0)) (by simp [NUM_LEDS_TOTAL,
    NUM_LEDS_LEFT, NUM_LEDS_TOP, NUM_LEDS_RIGHT])

/-- C2: For an exchange of capacity N with 2 ≤ N < 4 starting empty,
publishing F1, F2, F3, F4 in order and then calling takeLatest (get) once
returns exactly F4; an immediately following second call returns None. -/
theorem exchange_latest_wins {α : Type} (zero F1 F2 F3 F4 : α)
    (N : Nat) (h2 : 2 ≤ N) (h4 : N < 4) :
    (((((RingBuffer.init N zero).put F1).put F2).put F3).put F4).get.1
        = some F4 ∧
    ((((((RingBuffer.init N zero).put F1).put F2).put F3).put F4).get.2).get.1
        = none := by
  interval_cases N <;>
    refine ⟨?_, ?_⟩ <;>
      simp [RingBuffer.init, RingBuffer.put, RingBuffer.get]

/-- Witness for C2: capacity 3 (the source's BUFFER_SIZE), concrete samples. -/
theorem exchange_latest_wins_witness :
    (((((RingBuffer.init 3 (0 : Nat)).put 1).put 2).put 3).put 4).get.1
        = some 4 ∧
    ((((((RingBuffer.init 3 (0 : Nat)).put 1).put 2).put 3).put 4).get.2).get.1
        = none :=
  exchange_latest_wins 0 1 2 3 4 3 (by decide) (by decide)

/-- C3: For every first sample of a run and every smoothing coefficient
α < 1, the processed output equals the saturation- and
brightness-transformed sample itself (then clamped and truncated), with no
blending against a zero/black previous state; the smoothing state is
initialized to that first sample.  Holds for both source variants. -/
theorem first_frame_no_blend (saturation brightness smoothing : ℚ)
    (_hs : smoothing < 1) (colors : List Color) :
    (ColorProcessor.process ⟨brightness, saturation, smoothing, none⟩ colors).1
      = (applyBrightness brightness (applySaturation saturation colors)).map
          clampOut ∧
    (ColorProcessor.process
        ⟨brightness, saturation, smoothing, none⟩ colors).2.prev_colors
      = some (applyBrightness brightness (applySaturation saturation colors)) ∧
    ∀ prev0 : List Color,
      (process_colors saturation brightness smoothing ⟨prev0, true⟩ colors).1
        = (applyBrightness brightness (applySaturation saturation colors)).map
            clampOut ∧
      (process_colors saturation brightness smoothing
          ⟨prev0, true⟩ colors).2.prev_colors
        = applyBrightness brightness (applySaturation saturation colors) :=
  ⟨rfl, rfl, fun _ => ⟨rfl, rfl⟩⟩

/-- Witness for C3: the source defaults (saturation 1.2, brightness 1,
smoothing 0.6 < 1) on a concrete one-LED sample. -/
theorem first_frame_no_blend_witness :
    (ColorProcessor.process ⟨1, 12/10, 6/10, none⟩ [((200 : ℚ), 100, 100)]).1
      = (applyBrightness 1 (applySaturation (12/10)
          [((200 : ℚ), 100, 100)])).map clampOut :=
  (first_frame_no_blend (12/10) 1 (6/10) (by norm_num) _).1

/-- Counterexample to C5: on input (200,100,100) with saturation 1.2,
brightness 1 and a first frame, the processed output is (213, 93, 93) —
the pre-clamp red channel is 640/3 ≈ 213.33, not ≈ 280, so the output is
not the claimed (255, 93, 93). -/
theorem saturation_example_counterexample :
    (ColorProcessor.process ⟨1, 12/10, 6/10, none⟩ [((200 : ℚ), 100, 100)]).1
      = [(213, 93, 93)] ∧
    (ColorProcessor.process ⟨1, 12/10, 6/10, none⟩ [((200 : ℚ), 100, 100)]).1
      ≠ [(255, 93, 93)] := by
  have h : (ColorProcessor.process ⟨1, 12/10, 6/10, none⟩
      [((200 : ℚ), 100, 100)]).1 = [(213, 93, 93)] := by
    norm_num [ColorProcessor.process, applySaturation, applyBrightness,
      satOne, clampOut, clampTrunc] <;> decide
  exact ⟨h, by rw [h]; decide⟩

/-- C5 amended: for input (200,100,100) with saturation factor 1.2
(brightness 1, first frame), gray = 400/3 ≈ 133.33, the pre-clamp output is
(640/3, 280/3, 280/3) ≈ (213.3, 93.3, 93.3), and after clamping to [0,255]
and integer truncation the output is exactly (213, 93, 93). -/
theorem saturation_example_amended :
    ((200 : ℚ) + 100 + 100) / 3 = 400/3 ∧
    applyBrightness 1 (applySaturation (12/10) [((200 : ℚ), 100, 100)])
      = [((640/3 : ℚ), 280/3, 280/3)] ∧
    (ColorProcessor.process ⟨1, 12/10, 6/10, none⟩ [((200 : ℚ), 100, 100)]).1
      = [(213, 93, 93)] := by
  refine ⟨by norm_num, ?_, ?_⟩
  · norm_num [applySaturation, applyBrightness, satOne]
  · norm_num [ColorProcessor.process, applySaturation, applyBrightness,
      satOne, clampOut, clampTrunc] <;> decide


/-- C4: For the configured edge LED counts (L,T,R) = (19,35,19), the
sampler's output has length L+T+R = 73 with left-edge LEDs at indices
[0,L), top-edge LEDs at [L,L+T), right-edge LEDs at [L+T,L+T+R) (expressed
as the per-index edge tags); and within each edge the per-LED segments
partition the edge's pixel range without overlap, with at most one
remainder segment per edge ignored (of size `height % 19` at the top of
the left edge, `width % 35` at the right of the top edge, `height % 19` at
the bottom of the right edge) when the edge length is not divisible by the
LED count. -/
theorem led_layout_partition :
    (∀ (f : SliceSpec → Color) (H W : Nat),
        (sample_colors f H W).length = NUM_LEDS_TOTAL) ∧
    (∀ H W : Nat, (allSlices H W).map SliceSpec.edge
        = List.replicate 19 Edge.left ++ List.replicate 35 Edge.top
            ++ List.replicate 19 Edge.right) ∧
    (∀ H p : Nat, (∃ s ∈ leftSlices H, inSlice s p) ↔ H % 19 ≤ p ∧ p < H) ∧
    (∀ W p : Nat, (∃ s ∈ topSlices W, inSlice s p) ↔ p < W - W % 35) ∧
    (∀ H p : Nat, (∃ s ∈ rightSlices H, inSlice s p) ↔ p < H - H % 19) ∧
    (∀ H : Nat, (leftSlices H).Pairwise
        (fun s t => ∀ p : Nat, ¬ (inSlice s p ∧ inSlice t p))) ∧
    (∀ W : Nat, (topSlices W).Pairwise
        (fun s t => ∀ p : Nat, ¬ (inSlice s p ∧ inSlice t p))) ∧
    (∀ H : Nat, (rightSlices H).Pairwise
        (fun s t => ∀ p : Nat, ¬ (inSlice s p ∧ inSlice t p))) :=
  ⟨fun f H W => by simpa [sample_colors] using allSlices_length H W,
   allSlices_edges, left_covered, top_covered, right_covered,
   left_slices_disjoint, top_slices_disjoint, right_slices_disjoint⟩

/-- Witness for C4: on a 1920x1080 monitor, pixel row 500 of the left edge
is covered by some LED segment. -/
theorem led_layout_partition_witness :
    ∃ s ∈ leftSlices 1080, inSlice s 500 :=
  (led_layout_partition.2.2.1 1080 500).mpr (by decide)


/-- Any first match dominates: if `p` is in the list, matches, and is the
only matching element, `find?` returns `p`. -/
theorem find_unique_match (match_fn : PortInfo → Bool) :
    ∀ (ports : List PortInfo) (p : PortInfo), p ∈ ports →
      match_fn p = true → (∀ q ∈ ports, match_fn q = true → q = p) →
      ports.find? match_fn = some p := by
  intro ports
  induction ports with
  | nil => intro p hp _ _; cases hp
  | cons a rest ih =>
      intro p hp hm huniq
      rw [List.find?_cons]
      cases ha : match_fn a with
      | true =>
          have hap : a = p := huniq a (List.mem_cons_self a rest) ha
          simp [hap]
      | false =>
          simp only
          have hpr : p ∈ rest := by
            rcases List.mem_cons.mp hp with h | h
            · exact absurd (h ▸ hm) (by simp [ha])
            · exact h
          exact ih p hpr hm fun q hq hqm =>
            huniq q (List.mem_cons_of_mem a hq) hqm

/-- Counterexample to C6: the pro variant matches keywords against the
description or the device name.  Here exactly one port's description
matches a keyword (the Arduino on COM7), yet auto-detection selects
ttyUSB0, whose device name matches the keyword "ttyUSB" earlier in the
list. -/
theorem port_auto_detect_counterexample :
    ((([⟨"ttyUSB0", "generic device"⟩, ⟨"COM7", "Arduino Uno"⟩] :
        List PortInfo).filter
          (fun p => proKeywords.any fun k => strContains k p.description)).map
        PortInfo.device = ["COM7"]) ∧
    auto_detect [⟨"ttyUSB0", "generic device"⟩, ⟨"COM7", "Arduino Uno"⟩]
      = some "ttyUSB0" ∧
    ("ttyUSB0" : String) ≠ "COM7" := by
  refine ⟨by decide, by decide, by decide⟩

/-- C6 amended: in the pro variant a port is matched when a known keyword
occurs in its description or its device name (the baseline variant checks
descriptions only).  If exactly one port matches under the variant's own
test, it is selected; with no match the first enumerated port is
selected; with an empty port list detection fails (fatal exit). -/
theorem port_auto_detect_amended :
    (∀ (ports : List PortInfo) (p : PortInfo), p ∈ ports →
        proMatches p = true → (∀ q ∈ ports, proMatches q = true → q = p) →
        auto_detect ports = some p.device) ∧
    (∀ (ports : List PortInfo), (∀ q ∈ ports, proMatches q = false) →
        ∀ p rest, ports = p :: rest → auto_detect ports = some p.device) ∧
    auto_detect [] = none ∧
    (∀ (ports : List PortInfo) (p : PortInfo), p ∈ ports →
        basicMatches p = true →
        (∀ q ∈ ports, basicMatches q = true → q = p) →
        connect_serial_choice ports = some p.device) ∧
    (∀ (ports : List PortInfo), (∀ q ∈ ports, basicMatches q = false) →
        ∀ p rest, ports = p :: rest →
        connect_serial_choice ports = some p.device) ∧
    connect_serial_choice [] = none := by
  refine ⟨?_, ?_, rfl, ?_, ?_, rfl⟩
  · intro ports p hp hm huniq
    rw [auto_detect.eq_def, find_unique_match proMatches ports p hp hm huniq]
  · intro ports hnone p rest heq
    subst heq
    have hfind : (p :: rest).find? proMatches = none :=
      List.find?_eq_none.mpr fun q hq => by simp [hnone q hq]
    rw [auto_detect.eq_def, hfind]
  · intro ports p hp hm huniq
    rw [connect_serial_choice.eq_def,
      find_unique_match basicMatches ports p hp hm huniq]
  · intro ports hnone p rest heq
    subst heq
    have hfind : (p :: rest).find? basicMatches = none :=
      List.find?_eq_none.mpr fun q hq => by simp [hnone q hq]
    rw [connect_serial_choice.eq_def, hfind]

/-- Witness for C6 (amended): a single Arduino port is selected. -/
theorem port_auto_detect_amended_witness :
    auto_detect [⟨"COM7", "Arduino Uno"⟩] = some "COM7" :=
  port_auto_detect_amended.1 [⟨"COM7", "Arduino Uno"⟩] ⟨"COM7", "Arduino Uno"⟩
    (by decide) (by decide) (by decide)

/-- Counterexample to C7: the claim's cited baseline `Ambilight.send`
(`ambilight.py`) never returns a boolean — at a concrete failing write it
returns Python `None` (not `False`), signaling the failure only by setting
`self.running = False`; at a concrete succeeding write it also returns
`None` and leaves `running` alone.  So "send returns a boolean, false
exactly on an I/O failure" is false of that cited code. -/
theorem send_failure_counterexample :
    baseline_send (fun _ => Except.error ()) true []
      = Except.ok ((none : Option Bool), false) ∧
    baseline_send (fun _ => (Except.ok () : Except Unit Unit)) true []
      = Except.ok ((none : Option Bool), true) ∧
    (none : Option Bool) ≠ some false :=
  ⟨rfl, rfl, by decide⟩

/-- C7 amended: in the pro variant, `SerialSender.send` returns a boolean
wrapped in `ok` (the `try/except` never re-raises), `false` exactly when
the serial write fails, and the consumer loop turns a `false` send into
`fatalShutdown` (break out of the loop into `cleanup`); in the baseline
variant, `Ambilight.send` returns `None` on every path (never a boolean,
also without re-raising) and reports a write failure by setting
`self.running = False` — ending the baseline loop at its next
`while self.running:` check — while a successful write leaves `running`
unchanged. -/
theorem send_failure_boolean {ε : Type} :
    (∀ (write : List Nat → Except ε Unit) (colors : List (Nat × Nat × Nat)),
        ∃ b : Bool, SerialSender.send write colors = Except.ok b) ∧
    (∀ (write : List Nat → Except ε Unit) (colors : List (Nat × Nat × Nat)),
        SerialSender.send write colors = Except.ok false ↔
          ∃ e : ε, write (frameBytes colors) = Except.error e) ∧
    (∀ (latest : Option (List Color)) (cp : ColorProcessor)
        (sendResult : List (Nat × Nat × Nat) → Bool),
        consumer_step latest cp sendResult = IterOutcome.fatalShutdown ↔
          ∃ c, latest = some c ∧ sendResult (cp.process c).1 = false) ∧
    (∀ (write : List Nat → Except ε Unit) (running : Bool)
        (colors : List (Nat × Nat × Nat)),
        ∃ r : Bool, baseline_send write running colors
          = Except.ok ((none : Option Bool), r)) ∧
    (∀ (write : List Nat → Except ε Unit) (running : Bool)
        (colors : List (Nat × Nat × Nat)),
        write (frameBytes colors) = Except.ok () →
          baseline_send write running colors
            = Except.ok ((none : Option Bool), running)) ∧
    (∀ (write : List Nat → Except ε Unit) (running : Bool)
        (colors : List (Nat × Nat × Nat)) (e : ε),
        write (frameBytes colors) = Except.error e →
          baseline_send write running colors
            = Except.ok ((none : Option Bool), false)) := by
  refine ⟨?_, ?_, ?_, ?_, ?_, ?_⟩
  · intro write colors
    cases hw : write (frameBytes colors) with
    | ok u => exact ⟨true, by rw [SerialSender.send, hw]⟩
    | error e => exact ⟨false, by rw [SerialSender.send, hw]⟩
  · intro write colors
    cases hw : write (frameBytes colors) with
    | ok u => simp [SerialSender.send, hw]
    | error e => simp [SerialSender.send, hw]
  · intro latest cp sendResult
    cases latest with
    | none => simp [consumer_step]
    | some c =>
        cases hsr : sendResult (cp.process c).1 with
        | true => simp [consumer_step, hsr]
        | false => simp [consumer_step, hsr]
  · intro write running colors
    cases hw : write (frameBytes colors) with
    | ok u => exact ⟨running, by rw [baseline_send, hw]⟩
    | error e => exact ⟨false, by rw [baseline_send, hw]⟩
  · intro write running colors hw
    rw [baseline_send, hw]
  · intro write running colors e hw
    rw [baseline_send, hw]

/-- Witness for C7: a failing write makes send return `ok false`. -/
theorem send_failure_boolean_witness :
    SerialSender.send (fun _ => Except.error ()) [] = Except.ok false :=
  (send_failure_boolean.2.1 (fun _ => Except.error ()) []).mpr ⟨(), rfl⟩

/-- Counterexample to C8: with two enumerated monitors and startup index
-4, `idx = min(-4 + 1, 2 - 1) = -3`; Python evaluates `monitors[-3]`,
which is out of range and raises IndexError — the index is not clamped to
a valid entry. -/
theorem monitor_clamp_counterexample :
    setup_monitor [(0 : Nat), 1] (-4) = none := by decide

/-- C8 amended: for every monitor index m with m + 1 ≥ −len(monitors) —
in particular every index ≥ −1 and every too-large index, the latter
clamped to the last enumerated monitor — the selected monitor is a valid
entry; for m + 1 < −len(monitors) the (negative, unclamped) index is out
of range and monitor setup fails with IndexError. -/
theorem monitor_clamp_amended :
    (∀ (α : Type) (monitors : List α) (m : Int), monitors ≠ [] →
        -(monitors.length : Int) ≤ m + 1 →
        (setup_monitor monitors m).isSome = true) ∧
    (∀ (α : Type) (monitors : List α) (m : Int),
        m + 1 < -(monitors.length : Int) →
        setup_monitor monitors m = none) := by
  constructor
  · intro α monitors m hne hbound
    have hlen : 0 < monitors.length := List.length_pos.mpr hne
    rw [setup_monitor, pyIndex]
    split
    · next h0 =>
        have hlt : (min (m + 1) ((monitors.length : Int) - 1)).toNat
            < monitors.length := by omega
        rw [List.get?_eq_get hlt]
        rfl
    · next h0 =>
        rw [if_pos (by omega)]
        have hlt : (min (m + 1) ((monitors.length : Int) - 1)
            + (monitors.length : Int)).toNat < monitors.length := by omega
        rw [List.get?_eq_get hlt]
        rfl
  · intro α monitors m hbound
    rw [setup_monitor, pyIndex, if_neg (by omega), if_neg (by omega)]

/-- Witness for C8 (amended): index -2 with two monitors selects the last
entry (valid), via Python negative indexing. -/
theorem monitor_clamp_amended_witness :
    (setup_monitor [(0 : Nat), 1] (-2)).isSome = true :=
  monitor_clamp_amended.1 Nat [0, 1] (-2) (by decide) (by decide)

/-- C10: the CLI default for --port is the literal 'COM3'; a CLI run that
omits --port hands 'COM3' to the connection logic, which then never
consults auto-detection (its result is `some 'COM3'` for every port
list); auto-detection runs only when the controller is constructed with
`port = None` programmatically. -/
theorem cli_default_port_no_autodetect :
    cli_port none = "COM3" ∧
    (∀ (cli : Option String) (ports : List PortInfo),
        connect_port (some (cli_port cli)) ports = some (cli_port cli)) ∧
    (∀ ports : List PortInfo,
        connect_port (some (cli_port none)) ports = some "COM3") ∧
    (∀ ports : List PortInfo, connect_port none ports = auto_detect ports) :=
  ⟨rfl, fun _ _ => rfl, fun _ => rfl, fun _ => rfl⟩


/-- `put` never changes the configured size. -/
theorem rb_size_put {α : Type} (rb : RingBuffer α) (a : α) :
    (rb.put a).size = rb.size := by
  rw [RingBuffer.put]
  split <;> rfl

/-- `get` never changes the configured size. -/
theorem rb_size_get {α : Type} (rb : RingBuffer α) :
    rb.get.2.size = rb.size := by
  rw [RingBuffer.get]
  split <;> rfl

/-- `get` returns `None` exactly when the buffer is empty. -/
theorem rb_get_none_iff {α : Type} (rb : RingBuffer α) :
    rb.get.1 = none ↔ rb.count = 0 := by
  rw [RingBuffer.get]
  split
  · next h => simp [h]
  · next h => simp [h]

/-- After any `get`, the buffer is marked consumed (`count = 0`). -/
theorem rb_get_count_zero {α : Type} (rb : RingBuffer α) :
    rb.get.2.count = 0 := by
  rw [RingBuffer.get]
  split
  · next h => simpa using h
  · rfl

/-- `put` preserves the state invariant. -/
theorem rb_inv_put {α : Type} (rb : RingBuffer α) (a : α)
    (hs : 0 < rb.size) (h : RBinv rb) : RBinv (rb.put a) := by
  obtain ⟨h1, h2, h3, h4, h5⟩ := h
  have hzero : ((rb.size : Int)) ≠ 0 := by omega
  have hpos : (0 : Int) < (rb.size : Int) := by omega
  rw [RingBuffer.put]
  split
  · next hc =>
      exact ⟨Nat.succ_le_of_lt hc, Int.emod_nonneg _ hzero,
        Int.emod_lt_of_pos _ hpos, h4, h5⟩
  · next hc =>
      exact ⟨h1, Int.emod_nonneg _ hzero, Int.emod_lt_of_pos _ hpos,
        Int.emod_nonneg _ hzero, Int.emod_lt_of_pos _ hpos⟩

/-- `get` preserves the state invariant. -/
theorem rb_inv_get {α : Type} (rb : RingBuffer α) (h : RBinv rb) :
    RBinv rb.get.2 := by
  obtain ⟨h1, h2, h3, h4, h5⟩ := h
  rw [RingBuffer.get]
  split
  · exact ⟨h1, h2, h3, h4, h5⟩
  · exact ⟨Nat.zero_le _, h2, h3, h2, h3⟩

/-- One operation preserves the size. -/
theorem rb_size_step {α : Type} (rb : RingBuffer α) (op : RBOp α) :
    (rb.step op).size = rb.size := by
  cases op with
  | put a => exact rb_size_put rb a
  | take => exact rb_size_get rb

/-- One operation preserves the invariant. -/
theorem rb_inv_step {α : Type} (rb : RingBuffer α) (op : RBOp α)
    (hs : 0 < rb.size) (h : RBinv rb) : RBinv (rb.step op) := by
  cases op with
  | put a => exact rb_inv_put rb a hs h
  | take => exact rb_inv_get rb h

/-- Any operation sequence preserves the invariant and the size. -/
theorem rb_inv_runOps {α : Type} (ops : List (RBOp α)) :
    ∀ rb : RingBuffer α, 0 < rb.size → RBinv rb →
      RBinv (rb.runOps ops) ∧ (rb.runOps ops).size = rb.size := by
  induction ops with
  | nil => intro rb _ h; exact ⟨h, rfl⟩
  | cons op rest ih =>
      intro rb hs h
      have hstep := rb_inv_step rb op hs h
      have hsize := rb_size_step rb op
      have hrec := ih (rb.step op) (by rw [hsize]; exact hs) hstep
      refine ⟨hrec.1, ?_⟩
      rw [show rb.runOps (op :: rest) = (rb.step op).runOps rest from rfl,
        hrec.2, hsize]

/-- C9: for every finite sequence of put and get operations on a
RingBuffer initialized with size ≥ 1, the invariant 0 ≤ count ≤ size
holds, write_idx and read_idx stay in [0, size), get returns None exactly
when count = 0, and every get resets count to 0 — so two consecutive gets
with no intervening put return a value then None. -/
theorem ringbuffer_state_invariant {α : Type} (zero : α) (size : Nat)
    (hs : 1 ≤ size) (ops : List (RBOp α)) :
    RBinv ((RingBuffer.init size zero).runOps ops) ∧
    (((RingBuffer.init size zero).runOps ops).get.1 = none ↔
      ((RingBuffer.init size zero).runOps ops).count = 0) ∧
    ((RingBuffer.init size zero).runOps ops).get.2.count = 0 ∧
    (∀ v, ((RingBuffer.init size zero).runOps ops).get.1 = some v →
      ((RingBuffer.init size zero).runOps ops).get.2.get.1 = none) := by
  have hinit : RBinv (RingBuffer.init size zero) := by
    refine ⟨Nat.zero_le _, le_refl 0, ?_, le_refl 0, ?_⟩ <;>
      show (0 : Int) < (size : Int) <;> omega
  obtain ⟨hinv, _⟩ :=
    rb_inv_runOps ops (RingBuffer.init size zero) (show 0 < size by omega)
      hinit
  refine ⟨hinv, rb_get_none_iff _, rb_get_count_zero _, ?_⟩
  intro v _
  rw [rb_get_none_iff]
  exact rb_get_count_zero _

/-- Witness for C9: a size-1 buffer after a put and a get satisfies the
invariant and reports empty. -/
theorem ringbuffer_state_invariant_witness :
    RBinv ((RingBuffer.init 1 (0 : Nat)).runOps [RBOp.put 7, RBOp.take]) ∧
    ((RingBuffer.init 1 (0 : Nat)).runOps [RBOp.put 7, RBOp.take]).get.1
      = none := by
  have h := ringbuffer_state_invariant (0 : Nat) 1 (by decide)
    [RBOp.put 7, RBOp.take]
  exact ⟨h.1, h.2.1.mpr (by decide)⟩

end Ambilight
